import Mathlib

/-!
Verification of the place-search and place-update endpoints of an
AirBnB-clone REST API (`api/v1/views/places.py`).

The storage layer and the entity models (`models/`) are not part of the
source tree under verification; they are modelled from the specification
(an `EntityStore` with `getById`, `getAll`, and the navigational
properties `state.cities`, `city.places`, `place.amenities`).  The view
code `places_search` and `update_place` is embedded faithfully from the
Python source.
-/

namespace AirBnB

/-- Modelled from the spec: a State entity has an identifier and has many
Cities (navigationally, via each City's `state_id`). -/
structure State where
  id : String
deriving DecidableEq

/-- Modelled from the spec: a City has an identifier and belongs to one
State via `state_id`. -/
structure City where
  id : String
  state_id : String
deriving DecidableEq

/-- Modelled from the spec: an Amenity has an identifier and a name. -/
structure Amenity where
  id : String
  name : String
deriving DecidableEq

/-- Modelled from the spec: a Place has an identifier, belongs to one User
(owner) and one City, and has many Amenities (a many-to-many link held
here as the list of linked amenity identifiers). -/
structure Place where
  id : String
  user_id : String
  city_id : String
  amenity_ids : List String
deriving DecidableEq

/-- Modelled from the spec: the backing EntityStore, holding every
persisted entity of each type, in store-enumeration order. -/
structure Store where
  states : List State
  cities : List City
  places : List Place
  amenities : List Amenity
deriving DecidableEq

/-- Modelled from the spec: `storage.get(State, id) -> Entity | absent`. -/
def getState (st : Store) (i : String) : Option State :=
  st.states.find? (fun s => s.id == i)

/-- Modelled from the spec: `storage.get(City, id) -> Entity | absent`. -/
def getCity (st : Store) (i : String) : Option City :=
  st.cities.find? (fun c => c.id == i)

/-- Modelled from the spec: `storage.get(Amenity, id) -> Entity | absent`. -/
def getAmenity (st : Store) (i : String) : Option Amenity :=
  st.amenities.find? (fun a => a.id == i)

/-- Modelled from the spec: the navigational property `state.cities` —
every City whose `state_id` is this State's id, in store order. -/
def stateCities (st : Store) (s : State) : List City :=
  st.cities.filter (fun c => c.state_id == s.id)

/-- Modelled from the spec: the navigational property `city.places` —
every Place whose `city_id` is this City's id, in store order. -/
def cityPlaces (st : Store) (c : City) : List Place :=
  st.places.filter (fun p => p.city_id == c.id)

/-- Modelled from the spec: the navigational property `place.amenities` —
the Amenity entities linked to the place (its amenity identifiers,
resolved through the store). -/
def placeAmenities (st : Store) (p : Place) : List Amenity :=
  p.amenity_ids.filterMap (getAmenity st)

/-- The JSON representation of a Place produced by `to_dict`, restricted
to the fields the claims are about.  `amenities = none` means the
amenities key is absent from the representation. -/
structure PlaceRepr where
  id : String
  user_id : String
  city_id : String
  amenities : Option (List String)
deriving DecidableEq

/-- Modelled from the spec: `place.to_dict()` — the place's attributes,
including its amenities (the round-trip property of the spec says a
result differs from the stored entity only by the *removed* amenities
key, so the raw representation carries it). -/
def toDict (p : Place) : PlaceRepr :=
  { id := p.id, user_id := p.user_id, city_id := p.city_id,
    amenities := some p.amenity_ids }

/-- `d.pop('amenities', None)` — drop the amenities key from a place
representation (places.py line 232). -/
def popAmenities (r : PlaceRepr) : PlaceRepr :=
  { r with amenities := none }

/-- Serialization used on the filtered path of `places_search`
(places.py lines 228-233): `to_dict` followed by popping `amenities`. -/
def reprOf (p : Place) : PlaceRepr :=
  popAmenities (toDict p)

/-- The parsed search criteria: the values of the optional JSON keys
`states`, `cities`, `amenities` (places.py lines 182-184), as lists of
identifier strings.  `none` = key absent. -/
structure SearchData where
  states : Option (List String)
  cities : Option (List String)
  amenities : Option (List String)
deriving DecidableEq

/-- Python truthiness of an optional list: `None` and `[]` are falsy. -/
def truthyOpt : Option (List String) → Bool
  | none => false
  | some l => !l.isEmpty

/-- One iteration of the state pass (places.py lines 202-207): if the id
resolved to a State, append every Place of every City of that State to
the accumulating list (`list_places.append(place)` inside the nested
loops; the inner `if city:` is always true for a stored City object). -/
def statePassStep (st : Store) (acc : List Place) (i : String) : List Place :=
  match getState st i with
  | none => acc
  | some s => (stateCities st s).foldl (fun a c => a ++ cityPlaces st c) acc

/-- The state pass of `places_search` (places.py lines 199-207). -/
def statePassList (st : Store) (sids : List String) : List Place :=
  sids.foldl (statePassStep st) []

/-- One appended place of the city pass: `if place not in list_places:
list_places.append(place)` (places.py lines 215-216). -/
def dedupStep (a : List Place) (p : Place) : List Place :=
  if p ∈ a then a else a ++ [p]

/-- One iteration of the city pass (places.py lines 212-216): if the id
resolved to a City, append each of its Places unless already present. -/
def cityPassStep (st : Store) (acc : List Place) (i : String) : List Place :=
  match getCity st i with
  | none => acc
  | some c => (cityPlaces st c).foldl dedupStep acc

/-- The city pass of `places_search` (places.py lines 209-216). -/
def cityPassList (st : Store) (cids : List String) (acc0 : List Place) :
    List Place :=
  cids.foldl (cityPassStep st) acc0

/-- The places the city pass appends beyond the state pass's list: the
city-derived unique additions, in the order the pass appends them. -/
def cityExtras (st : Store) (cids : List String) (acc : List Place) :
    List Place :=
  (cityPassList st cids acc).drop acc.length

/-- The amenity narrowing of `places_search` (places.py lines 222-226):
resolve every requested amenity id (unresolvable ids stay as `None`
and can never test as a member), and keep the places for which every
resolved object is a member of `place.amenities`. -/
def amenityNarrow (st : Store) (aids : List String) (ps : List Place) :
    List Place :=
  let aobjs := aids.map (getAmenity st)
  ps.filter (fun p =>
    aobjs.all (fun oa =>
      match oa with
      | none => false
      | some a => decide (a ∈ placeAmenities st p)))

/-- The candidate set built by the state and city passes of
`places_search` (places.py lines 197-216), for parsed criteria `d`.
A falsy (`None` or empty) criteria value skips its pass. -/
def candidatesOf (st : Store) (d : SearchData) : List Place :=
  let l1 := if truthyOpt d.states then statePassList st (d.states.getD [])
            else []
  if truthyOpt d.cities then cityPassList st (d.cities.getD []) l1 else l1

/-- The core of `places_search` (places.py lines 186-233) on parsed
criteria: if all three criteria are falsy, return every Place's
`to_dict` unchanged (lines 191-195, amenities key not popped there);
otherwise build the candidate set, narrow by amenities (falling back to
the full Place collection when the candidate list is empty, lines
220-221), and serialize popping the amenities key. -/
def searchPlaces (st : Store) (d : SearchData) : List PlaceRepr :=
  if !truthyOpt d.states && !truthyOpt d.cities && !truthyOpt d.amenities
  then st.places.map toDict
  else
    let l2 := candidatesOf st d
    let l3 :=
      if truthyOpt d.amenities then
        amenityNarrow st (d.amenities.getD [])
          (if l2.isEmpty then st.places else l2)
      else l2
    l3.map reprOf

/-! ## The HTTP layer of `places_search`

The view receives `request.get_json()`: `None` when the body is not
valid JSON (or is the JSON literal `null`, which parses to Python
`None`), otherwise the parsed JSON value.  The body need not be an
object; the code's behavior on each shape is embedded below, with an
uncaught Python exception (`TypeError`/`AttributeError`) modelled as a
500 response. -/

/-- A JSON value, as Python's JSON parser produces it. -/
inductive Json where
  | null
  | bool (b : Bool)
  | num (n : Int)
  | str (s : String)
  | arr (elems : List Json)
  | obj (fields : List (String × Json))

/-- A request body: either not valid JSON, or a parsed JSON value. -/
inductive Body where
  | invalid
  | valid (j : Json)

/-- The observable response of the endpoint: the blueprint's 400 handler
(`{"error": "Bad Request"}`), a 200 with the serialized place list, or
an unhandled exception surfacing as a 500. -/
inductive Response where
  | bad400
  | ok (body : List PlaceRepr)
  | err500
deriving DecidableEq

/-- Python truthiness of a JSON value. -/
def jsonTruthy : Json → Bool
  | Json.null => false
  | Json.bool b => b
  | Json.num n => n != 0
  | Json.str s => !s.isEmpty
  | Json.arr l => !l.isEmpty
  | Json.obj f => !f.isEmpty

/-- Truthiness of `data.get(key, None)`: `None` (key absent) is falsy. -/
def optJTruthy : Option Json → Bool
  | none => false
  | some j => jsonTruthy j

/-- `data.get(key, None)` on a parsed JSON object. -/
def lookupKey (f : List (String × Json)) (k : String) : Option Json :=
  (f.find? (fun kv => kv.1 == k)).map (fun kv => kv.2)

/-- Python iteration over a JSON value: lists yield their elements,
strings their characters (as one-character strings), dicts their keys;
`None`, booleans and numbers are not iterable (`TypeError`). -/
def pyIter : Json → Option (List Json)
  | Json.str s => some (s.toList.map (fun c => Json.str (String.singleton c)))
  | Json.arr l => some l
  | Json.obj f => some (f.map (fun kv => Json.str kv.1))
  | _ => none

/-- The elements a criteria value contributes to its pass: an absent or
falsy value contributes none (its pass is skipped by `if states:` etc.),
a truthy value is iterated — `none` here is the `TypeError` of iterating
a number or boolean. -/
def critElems (v : Option Json) : Option (List Json) :=
  match v with
  | none => some []
  | some j => if jsonTruthy j then pyIter j else some []

/-- `storage.get(State, s_id)` where `s_id` came from iterating raw JSON:
a stored id (a string) is equal only to a string. -/
def getStateJ (st : Store) : Json → Option State
  | Json.str s => getState st s
  | _ => none

/-- `storage.get(City, c_id)` for a raw JSON id. -/
def getCityJ (st : Store) : Json → Option City
  | Json.str s => getCity st s
  | _ => none

/-- `storage.get(Amenity, a_id)` for a raw JSON id. -/
def getAmenityJ (st : Store) : Json → Option Amenity
  | Json.str s => getAmenity st s
  | _ => none

/-- One step of the state pass (places.py lines 202-207) on a raw JSON id. -/
def statePassStepJ (st : Store) (acc : List Place) (j : Json) : List Place :=
  match getStateJ st j with
  | none => acc
  | some s => (stateCities st s).foldl (fun a c => a ++ cityPlaces st c) acc

/-- The state pass on raw JSON ids. -/
def statePassJ (st : Store) (jids : List Json) : List Place :=
  jids.foldl (statePassStepJ st) []

/-- One step of the city pass (places.py lines 212-216) on a raw JSON id. -/
def cityPassStepJ (st : Store) (acc : List Place) (j : Json) : List Place :=
  match getCityJ st j with
  | none => acc
  | some c => (cityPlaces st c).foldl dedupStep acc

/-- The city pass on raw JSON ids. -/
def cityPassJ (st : Store) (jids : List Json) (acc0 : List Place) : List Place :=
  jids.foldl (cityPassStepJ st) acc0

/-- The amenity narrowing (places.py lines 222-226) on raw JSON ids. -/
def amenityNarrowJ (st : Store) (jids : List Json) (ps : List Place) :
    List Place :=
  let aobjs := jids.map (getAmenityJ st)
  ps.filter (fun p =>
    aobjs.all (fun oa =>
      match oa with
      | none => false
      | some a => decide (a ∈ placeAmenities st p)))

/-- `places_search` on a parsed JSON object body (places.py lines
181-233): read the three criteria values, return all places (raw
`to_dict`) when all are absent or falsy, otherwise run the three passes
in order — a truthy criteria value that cannot be iterated raises
(`err500`) at its pass. -/
def handleObjFields (st : Store) (f : List (String × Json)) : Response :=
  let sv := lookupKey f "states"
  let cv := lookupKey f "cities"
  let av := lookupKey f "amenities"
  if !optJTruthy sv && !optJTruthy cv && !optJTruthy av then
    Response.ok (st.places.map toDict)
  else
    match critElems sv with
    | none => Response.err500
    | some sjs =>
      let l1 := statePassJ st sjs
      match critElems cv with
      | none => Response.err500
      | some cjs =>
        let l2 := cityPassJ st cjs l1
        match critElems av with
        | none => Response.err500
        | some ajs =>
          let l3 :=
            if optJTruthy av then
              amenityNarrowJ st ajs (if l2.isEmpty then st.places else l2)
            else l2
          Response.ok (l3.map reprOf)

/-- `places_search` on a parsed non-null JSON body.  A falsy body (`{}`,
`[]`, `""`, `0`, `false`) takes the all-places branch (lines 187-195);
a truthy non-object body raises at `len(data)` or `data.get` (500). -/
def handleData (st : Store) (j : Json) : Response :=
  match j with
  | Json.obj f =>
      if jsonTruthy (Json.obj f) then handleObjFields st f
      else Response.ok (st.places.map toDict)
  | j' =>
      if jsonTruthy j' then Response.err500
      else Response.ok (st.places.map toDict)

/-- The whole endpoint (places.py lines 168-236): a body that is not
valid JSON is rejected 400 by the framework's JSON parsing (caught by
the blueprint's 400 handler), a body parsing to `None` — the JSON
literal `null` — is rejected 400 by the explicit
`if request.get_json() is None` check, and every other body reaches
`handleData`. -/
def placesSearchHTTP (st : Store) (b : Body) : Response :=
  match b with
  | Body.invalid => Response.bad400
  | Body.valid Json.null => Response.bad400
  | Body.valid j => handleData st j

/-! ## A state-passing embedding of `places_search`

To settle the frame claim (the endpoint performs only reads), the
endpoint is re-embedded with the store threaded through every storage
access.  Each primitive returns the possibly-updated store; the read
primitives below return it unchanged, which is exactly the spec's
contract for `getById`/`getAll` and the navigational properties
(`update_place` and `delete_place`, by contrast, call `save`/`delete`,
which do replace the store — see `runSavePlace`). -/

/-- `storage.get(State, id)` as a store transition (a pure read). -/
def runGetStateJ (j : Json) (st : Store) : Option State × Store :=
  (getStateJ st j, st)

/-- `storage.get(City, id)` as a store transition (a pure read). -/
def runGetCityJ (j : Json) (st : Store) : Option City × Store :=
  (getCityJ st j, st)

/-- `storage.get(Amenity, id)` as a store transition (a pure read). -/
def runGetAmenityJ (j : Json) (st : Store) : Option Amenity × Store :=
  (getAmenityJ st j, st)

/-- `storage.all(Place).values()` as a store transition (a pure read). -/
def runAllPlaces (st : Store) : List Place × Store :=
  (st.places, st)

/-- The navigational property `state.cities` as a store transition. -/
def runStateCities (s : State) (st : Store) : List City × Store :=
  (stateCities st s, st)

/-- The navigational property `city.places` as a store transition. -/
def runCityPlaces (c : City) (st : Store) : List Place × Store :=
  (cityPlaces st c, st)

/-- The navigational property `place.amenities` as a store transition. -/
def runPlaceAmenities (p : Place) (st : Store) : List Amenity × Store :=
  (placeAmenities st p, st)

/-- `place.save()` of `update_place` as a store transition: it replaces
the stored place carrying the given id.  Shown here only to exhibit
that this semantics can express writes; `places_search` never calls it. -/
def runSavePlace (p : Place) (st : Store) : Unit × Store :=
  ((), { st with places := st.places.map (fun q => if q.id == p.id then p else q) })

/-- The state pass, store threaded through every storage access. -/
def runStatePass (jids : List Json) (pr0 : List Place × Store) :
    List Place × Store :=
  jids.foldl
    (fun pr j =>
      let os := runGetStateJ j pr.2
      match os.1 with
      | none => (pr.1, os.2)
      | some s =>
          let cs := runStateCities s os.2
          cs.1.foldl
            (fun q c =>
              let ps := runCityPlaces c q.2
              (q.1 ++ ps.1, ps.2))
            (pr.1, cs.2))
    pr0

/-- The city pass, store threaded through every storage access (the
membership test of the dedup runs on the in-memory list, not the store). -/
def runCityPass (jids : List Json) (pr0 : List Place × Store) :
    List Place × Store :=
  jids.foldl
    (fun pr j =>
      let oc := runGetCityJ j pr.2
      match oc.1 with
      | none => (pr.1, oc.2)
      | some c =>
          let ps := runCityPlaces c oc.2
          (ps.1.foldl dedupStep pr.1, ps.2))
    pr0

/-- The amenity narrowing, store threaded: resolve each requested id,
then walk the candidates reading each `place.amenities`. -/
def runAmenityNarrow (jids : List Json) (ps : List Place) (st0 : Store) :
    List Place × Store :=
  let ares := jids.foldl
    (fun (pr : List (Option Amenity) × Store) j =>
      let oa := runGetAmenityJ j pr.2
      (pr.1 ++ [oa.1], oa.2))
    ([], st0)
  ps.foldl
    (fun (pr : List Place × Store) p =>
      let ams := runPlaceAmenities p pr.2
      (if ares.1.all (fun oa =>
          match oa with
          | none => false
          | some a => decide (a ∈ ams.1)) then pr.1 ++ [p] else pr.1,
       ams.2))
    ([], ares.2)

/-- `places_search` on a parsed JSON object body, store threaded. -/
def runHandleObjFields (f : List (String × Json)) (st : Store) :
    Response × Store :=
  let sv := lookupKey f "states"
  let cv := lookupKey f "cities"
  let av := lookupKey f "amenities"
  if !optJTruthy sv && !optJTruthy cv && !optJTruthy av then
    let ap := runAllPlaces st
    (Response.ok (ap.1.map toDict), ap.2)
  else
    match critElems sv with
    | none => (Response.err500, st)
    | some sjs =>
      let r1 := runStatePass sjs ([], st)
      match critElems cv with
      | none => (Response.err500, r1.2)
      | some cjs =>
        let r2 := runCityPass cjs r1
        match critElems av with
        | none => (Response.err500, r2.2)
        | some ajs =>
          if optJTruthy av then
            let base :=
              if r2.1.isEmpty then runAllPlaces r2.2 else (r2.1, r2.2)
            let r3 := runAmenityNarrow ajs base.1 base.2
            (Response.ok (r3.1.map reprOf), r3.2)
          else
            (Response.ok (r2.1.map reprOf), r2.2)

/-- The whole `places_search` endpoint, store threaded: the 400 paths and
the non-object crashes touch no storage at all. -/
def runPlacesSearch (b : Body) (st : Store) : Response × Store :=
  match b with
  | Body.invalid => (Response.bad400, st)
  | Body.valid Json.null => (Response.bad400, st)
  | Body.valid (Json.obj f) =>
      if jsonTruthy (Json.obj f) then runHandleObjFields f st
      else
        let ap := runAllPlaces st
        (Response.ok (ap.1.map toDict), ap.2)
  | Body.valid j =>
      if jsonTruthy j then (Response.err500, st)
      else
        let ap := runAllPlaces st
        (Response.ok (ap.1.map toDict), ap.2)

/-! ## The attribute assignment of `update_place`

`update_place` (places.py lines 115-143) applies the request body to the
place by dynamic attribute assignment: `for key, value in data.items():
if key not in ignore_keys: setattr(place, key, value)`.  A Python
object's attribute state is embedded as an association list from
attribute name to value. -/

/-- `setattr(place, k, v)`: overwrite the attribute if present, else add
it. -/
def setAttr (attrs : List (String × Json)) (k : String) (v : Json) :
    List (String × Json) :=
  if attrs.any (fun kv => kv.1 == k)
  then attrs.map (fun kv => if kv.1 == k then (k, v) else kv)
  else attrs ++ [(k, v)]

/-- `getattr(place, k)`: the current value of an attribute. -/
def attrLookup (attrs : List (String × Json)) (k : String) : Option Json :=
  (attrs.find? (fun kv => kv.1 == k)).map (fun kv => kv.2)

/-- The ignore list of `update_place` (places.py line 131). -/
def ignore_keys : List String :=
  ["id", "user_id", "city_id", "created_at", "updated_at"]

/-- The update loop of `update_place` (places.py lines 133-135): assign
every key of the JSON body that is not in the ignore list. -/
def applyUpdates (attrs : List (String × Json))
    (data : List (String × Json)) : List (String × Json) :=
  data.foldl
    (fun a kv => if kv.1 ∈ ignore_keys then a else setAttr a kv.1 kv.2)
    attrs

/-! ## A concrete store for witnesses and counterexamples

One State S1 with two Cities C1, C2; places P1, P3 in C1 and P2 in C2;
amenities A1, A2; P1 carries {A1, A2}, P2 carries {A1}, P3 none. -/

def samplePlace1 : Place := ⟨"P1", "U1", "C1", ["A1", "A2"]⟩

def samplePlace2 : Place := ⟨"P2", "U1", "C2", ["A1"]⟩

def samplePlace3 : Place := ⟨"P3", "U2", "C1", []⟩

def sampleStore : Store :=
  { states := [⟨"S1"⟩],
    cities := [⟨"C1", "S1"⟩, ⟨"C2", "S1"⟩],
    places := [samplePlace1, samplePlace2, samplePlace3],
    amenities := [⟨"A1", "wifi"⟩, ⟨"A2", "pool"⟩] }

/-! ## Lemmas about the candidate-building passes -/

theorem foldl_append_eq {α β : Type} (g : α → List β) (l : List α)
    (acc : List β) :
    l.foldl (fun a c => a ++ g c) acc = acc ++ l.flatMap g := by
  induction l generalizing acc with
  | nil => simp
  | cons c tl ih => simp [ih, List.flatMap_cons]

theorem statePassStep_eq_append (st : Store) (acc : List Place) (i : String) :
    statePassStep st acc i = acc ++ statePassStep st [] i := by
  unfold statePassStep
  cases h : getState st i with
  | none => simp
  | some s => simp [foldl_append_eq]

theorem statePass_foldl_acc (st : Store) (sids : List String) :
    ∀ acc : List Place,
      sids.foldl (statePassStep st) acc = acc ++ statePassList st sids := by
  induction sids with
  | nil => intro acc; simp [statePassList]
  | cons i tl ih =>
      intro acc
      show tl.foldl (statePassStep st) (statePassStep st acc i) = _
      rw [ih, statePassStep_eq_append st acc i, List.append_assoc]
      have : statePassList st (i :: tl) =
          statePassStep st [] i ++ statePassList st tl := by
        show tl.foldl (statePassStep st) (statePassStep st [] i) = _
        rw [ih]
      rw [this]

theorem statePassList_cons (st : Store) (i : String) (tl : List String) :
    statePassList st (i :: tl) = statePassStep st [] i ++ statePassList st tl := by
  show tl.foldl (statePassStep st) (statePassStep st [] i) = _
  rw [statePass_foldl_acc]

theorem statePassList_eq_flatMap (st : Store) (sids : List String) :
    statePassList st sids =
      (sids.filterMap (getState st)).flatMap
        (fun s => (stateCities st s).flatMap (cityPlaces st)) := by
  induction sids with
  | nil => rfl
  | cons i tl ih =>
      rw [statePassList_cons, ih, List.filterMap_cons]
      cases h : getState st i with
      | none => simp [statePassStep, h]
      | some s => simp [statePassStep, h, foldl_append_eq, List.flatMap_cons]

theorem statePassList_filter_resolved (st : Store) (sids : List String) :
    statePassList st sids =
      statePassList st (sids.filter (fun j => (getState st j).isSome)) := by
  induction sids with
  | nil => rfl
  | cons i tl ih =>
      rw [statePassList_cons, List.filter_cons]
      cases h : getState st i with
      | none => simp [h, statePassStep, ih]
      | some s => simp [h, statePassList_cons, statePassStep, ih]

theorem cityPassList_cons (st : Store) (i : String) (tl : List String)
    (acc : List Place) :
    cityPassList st (i :: tl) acc = cityPassList st tl (cityPassStep st acc i) :=
  rfl

theorem dedup_foldl_extends (ps : List Place) :
    ∀ acc : List Place, ∃ t, ps.foldl dedupStep acc = acc ++ t ∧
      ∀ q ∈ t, q ∉ acc ∧ q ∈ ps := by
  induction ps with
  | nil => intro acc; exact ⟨[], by simp, by simp⟩
  | cons p tl ih =>
      intro acc
      by_cases hp : p ∈ acc
      · obtain ⟨t, ht, hq⟩ := ih acc
        refine ⟨t, ?_, ?_⟩
        · show tl.foldl dedupStep (dedupStep acc p) = _
          simpa [dedupStep, hp] using ht
        · intro q hqt
          exact ⟨(hq q hqt).1, List.mem_cons_of_mem _ (hq q hqt).2⟩
      · obtain ⟨t, ht, hq⟩ := ih (acc ++ [p])
        refine ⟨p :: t, ?_, ?_⟩
        · show tl.foldl dedupStep (dedupStep acc p) = _
          rw [show dedupStep acc p = acc ++ [p] from by simp [dedupStep, hp], ht,
            List.append_assoc]
          rfl
        · intro q hqt
          rcases List.mem_cons.mp hqt with hqp | hqt2
          · subst hqp; exact ⟨hp, List.mem_cons_self _ _⟩
          · refine ⟨fun hqa => (hq q hqt2).1 (List.mem_append_left _ hqa), ?_⟩
            exact List.mem_cons_of_mem _ (hq q hqt2).2

theorem cityPassList_extends (st : Store) (cids : List String) :
    ∀ acc : List Place, ∃ t, cityPassList st cids acc = acc ++ t ∧
      ∀ q ∈ t, q ∉ acc ∧
        ∃ c ∈ cids.filterMap (getCity st), q ∈ cityPlaces st c := by
  induction cids with
  | nil => intro acc; exact ⟨[], by simp [cityPassList], by simp⟩
  | cons i tl ih =>
      intro acc
      rw [cityPassList_cons]
      cases h : getCity st i with
      | none =>
          obtain ⟨t, ht, hq⟩ := ih acc
          refine ⟨t, by simpa [cityPassStep, h] using ht, ?_⟩
          intro q hqt
          refine ⟨(hq q hqt).1, ?_⟩
          obtain ⟨c, hc, hqc⟩ := (hq q hqt).2
          exact ⟨c, by simpa [List.filterMap_cons, h] using hc, hqc⟩
      | some c0 =>
          obtain ⟨t1, ht1, hq1⟩ := dedup_foldl_extends (cityPlaces st c0) acc
          obtain ⟨t2, ht2, hq2⟩ := ih (acc ++ t1)
          refine ⟨t1 ++ t2, ?_, ?_⟩
          · rw [show cityPassStep st acc i = acc ++ t1 from by
              simpa [cityPassStep, h] using ht1, ht2, List.append_assoc]
          · intro q hqt
            rcases List.mem_append.mp hqt with hq1m | hq2m
            · refine ⟨(hq1 q hq1m).1, c0, ?_, (hq1 q hq1m).2⟩
              simp [List.filterMap_cons, h]
            · refine ⟨fun hqa => (hq2 q hq2m).1 (List.mem_append_left _ hqa), ?_⟩
              obtain ⟨c, hc, hqc⟩ := (hq2 q hq2m).2
              exact ⟨c, by simpa [List.filterMap_cons, h] using List.mem_cons_of_mem c0 hc, hqc⟩

theorem cityPassList_filter_resolved (st : Store) (cids : List String) :
    ∀ acc : List Place,
      cityPassList st cids acc =
        cityPassList st (cids.filter (fun j => (getCity st j).isSome)) acc := by
  induction cids with
  | nil => intro acc; rfl
  | cons i tl ih =>
      intro acc
      rw [cityPassList_cons, List.filter_cons]
      cases h : getCity st i with
      | none => simp [h, cityPassStep, ih]
      | some c => simp [h, cityPassList_cons, cityPassStep, ih]

theorem cityPassList_count (st : Store) (cids : List String) (acc : List Place)
    (p : Place) (hp : p ∈ acc) :
    (cityPassList st cids acc).count p = acc.count p := by
  obtain ⟨t, ht, hq⟩ := cityPassList_extends st cids acc
  rw [ht, List.count_append]
  have h0 : t.count p = 0 := List.count_eq_zero.mpr (fun hmem => (hq p hmem).1 hp)
  omega

theorem mem_of_mem_cityPlaces {st : Store} {c : City} {q : Place}
    (h : q ∈ cityPlaces st c) : q ∈ st.places :=
  (List.mem_filter.mp h).1

theorem mem_of_mem_statePassList {st : Store} {sids : List String} {q : Place}
    (h : q ∈ statePassList st sids) : q ∈ st.places := by
  rw [statePassList_eq_flatMap] at h
  rcases List.mem_flatMap.mp h with ⟨s, _, hs⟩
  rcases List.mem_flatMap.mp hs with ⟨c, _, hc⟩
  exact mem_of_mem_cityPlaces hc

theorem mem_of_mem_cityPassList {st : Store} {cids : List String}
    {acc : List Place} {q : Place} (h : q ∈ cityPassList st cids acc) :
    q ∈ acc ∨ q ∈ st.places := by
  obtain ⟨t, ht, hq⟩ := cityPassList_extends st cids acc
  rw [ht] at h
  rcases List.mem_append.mp h with h1 | h2
  · exact Or.inl h1
  · obtain ⟨c, _, hc⟩ := (hq q h2).2
    exact Or.inr (mem_of_mem_cityPlaces hc)

theorem candidatesOf_eq (st : Store) (sids cids : List String) :
    candidatesOf st ⟨some sids, some cids, none⟩ =
      cityPassList st cids (statePassList st sids) := by
  cases sids with
  | nil =>
      cases cids with
      | nil => rfl
      | cons c ctl => simp [candidatesOf, truthyOpt, statePassList]
  | cons s stl =>
      cases cids with
      | nil => simp [candidatesOf, truthyOpt, cityPassList]
      | cons c ctl => simp [candidatesOf, truthyOpt]

theorem candidatesOf_eq_general (st : Store) (d : SearchData) :
    candidatesOf st d =
      cityPassList st (d.cities.getD [])
        (statePassList st (d.states.getD [])) := by
  rcases d with ⟨os, oc, oa⟩
  rcases os with _ | ⟨_ | ⟨s, stl⟩⟩ <;> rcases oc with _ | ⟨_ | ⟨c, ctl⟩⟩ <;>
    simp [candidatesOf, truthyOpt, statePassList, cityPassList]

theorem count_map_reprOf (st : Store) (p : Place)
    (hid : (st.places.map Place.id).Nodup) (hp : p ∈ st.places) :
    ∀ l : List Place, (∀ q ∈ l, q ∈ st.places) →
      (l.map reprOf).count (reprOf p) = l.count p := by
  intro l
  induction l with
  | nil => intro _; rfl
  | cons q tl ih =>
      intro hl
      have hq : q ∈ st.places := hl q (List.mem_cons_self q tl)
      have htl : ∀ r ∈ tl, r ∈ st.places :=
        fun r hr => hl r (List.mem_cons_of_mem _ hr)
      rw [List.map_cons, List.count_cons, List.count_cons, ih htl]
      by_cases hqp : q = p
      · subst hqp; simp
      · have hne : reprOf q ≠ reprOf p := by
          intro he
          have hide : q.id = p.id := by
            have := congrArg PlaceRepr.id he
            simpa [reprOf, toDict, popAmenities] using this
          exact hqp (List.inj_on_of_nodup_map hid hq hp hide)
        simp [hqp, hne]

/-! ## The claims -/

/-- C1 (amended): for a search invocation in which all three criteria
lists (states, cities, amenities) are absent or empty, the result is
exactly the full Place collection, unfiltered, in store-enumeration
order — but serialized by raw `to_dict`, so the amenities field is NOT
stripped on this branch (the pop of places.py line 232 runs only on the
filtered path; the early return of lines 191-195 bypasses it). -/
theorem search_empty_criteria_all_places (st : Store) (d : SearchData)
    (hs : truthyOpt d.states = false) (hc : truthyOpt d.cities = false)
    (ha : truthyOpt d.amenities = false) :
    searchPlaces st d = st.places.map toDict := by
  simp [searchPlaces, hs, hc, ha]

/-- C1 witness: the amended claim at the concrete store, empty criteria. -/
theorem search_empty_criteria_all_places_witness :
    searchPlaces sampleStore ⟨none, none, none⟩ =
      sampleStore.places.map toDict :=
  search_empty_criteria_all_places sampleStore ⟨none, none, none⟩ rfl rfl rfl

/-- C1 counterexample: on a store whose place P1 carries amenities, the
empty-criteria search returns a representation whose amenities field is
still present, so the result is not "amenities stripped from each
returned place representation". -/
theorem search_empty_criteria_keeps_amenities :
    ((searchPlaces sampleStore ⟨none, none, none⟩).all
        (fun r => r.amenities.isNone)) = false := by
  decide

/-- C2: for every search invocation with a non-empty amenities list, the
result is the amenity narrowing of the candidate set (the full Place
collection when that set is empty), and a place survives the narrowing
exactly when every requested amenity id resolves to a stored Amenity
that is a member of the place's own amenity set — so a place can never
satisfy the membership test for an id that resolves to no Amenity. -/
theorem amenity_superset_filter (st : Store) (d : SearchData)
    (ha : truthyOpt d.amenities = true) :
    searchPlaces st d =
      (amenityNarrow st (d.amenities.getD [])
        (if (candidatesOf st d).isEmpty then st.places
         else candidatesOf st d)).map reprOf
    ∧ ∀ (ps : List Place) (q : Place),
        q ∈ amenityNarrow st (d.amenities.getD []) ps ↔
          q ∈ ps ∧ ∀ i ∈ d.amenities.getD [], ∃ a,
            getAmenity st i = some a ∧ a ∈ placeAmenities st q := by
  constructor
  · simp [searchPlaces, ha]
  · intro ps q
    simp only [amenityNarrow, List.mem_filter]
    constructor
    · rintro ⟨hqs, hall⟩
      refine ⟨hqs, ?_⟩
      intro i hi
      have hone := List.all_eq_true.mp hall (getAmenity st i)
        (List.mem_map_of_mem _ hi)
      cases hgi : getAmenity st i with
      | none => rw [hgi] at hone; simp at hone
      | some a =>
          rw [hgi] at hone
          exact ⟨a, rfl, by simpa using hone⟩
    · rintro ⟨hqs, hres⟩
      refine ⟨hqs, ?_⟩
      apply List.all_eq_true.mpr
      intro oa hoa
      rcases List.mem_map.mp hoa with ⟨i, hi, rfl⟩
      rcases hres i hi with ⟨a, hga, hmem⟩
      rw [hga]
      simpa using hmem

/-- C2 witness: the narrowing equation at the concrete store, with
amenities = [A1, A2]. -/
theorem amenity_superset_filter_witness :
    searchPlaces sampleStore ⟨none, none, some ["A1", "A2"]⟩ =
      (amenityNarrow sampleStore ["A1", "A2"]
        (if (candidatesOf sampleStore ⟨none, none, some ["A1", "A2"]⟩).isEmpty
         then sampleStore.places
         else candidatesOf sampleStore ⟨none, none, some ["A1", "A2"]⟩)).map
        reprOf :=
  (amenity_superset_filter sampleStore ⟨none, none, some ["A1", "A2"]⟩ rfl).1

/-- C3: a place already added by the state pass is never added a second
time by the city pass — its multiplicity is unchanged — and when it
occurs exactly once after the state pass, it appears exactly once in
the serialized search result (over a store with unique place ids). -/
theorem state_city_dedup (st : Store) (sids cids : List String) (p : Place)
    (h : p ∈ statePassList st sids) :
    (cityPassList st cids (statePassList st sids)).count p =
        (statePassList st sids).count p
    ∧ ((statePassList st sids).count p = 1 →
        (st.places.map Place.id).Nodup →
        (searchPlaces st ⟨some sids, some cids, none⟩).count (reprOf p) = 1) := by
  have hcount := cityPassList_count st cids (statePassList st sids) p h
  refine ⟨hcount, ?_⟩
  intro h1 hid
  have hsids : truthyOpt (some sids) = true := by
    cases sids with
    | nil => simp [statePassList] at h
    | cons a tl => rfl
  have hne : sids ≠ [] := by
    intro he
    subst he
    simp [statePassList] at h
  have hres : searchPlaces st ⟨some sids, some cids, none⟩ =
      (cityPassList st cids (statePassList st sids)).map reprOf := by
    simp [searchPlaces, truthyOpt, candidatesOf_eq, hne]
  have hmem : ∀ q ∈ cityPassList st cids (statePassList st sids),
      q ∈ st.places := by
    intro q hq
    rcases mem_of_mem_cityPassList hq with hq1 | hq2
    · exact mem_of_mem_statePassList hq1
    · exact hq2
  rw [hres,
    count_map_reprOf st p hid (mem_of_mem_statePassList h) _ hmem, hcount, h1]

/-- C3 witness: P1 is added by the state pass for S1; supplying C1 (a
city of S1) as well leaves its multiplicity at one. -/
theorem state_city_dedup_witness :
    (cityPassList sampleStore ["C1"]
        (statePassList sampleStore ["S1"])).count samplePlace1 =
      (statePassList sampleStore ["S1"]).count samplePlace1 :=
  (state_city_dedup sampleStore ["S1"] ["C1"] samplePlace1 (by decide)).1

/-- C4: an unresolvable id contributes nothing — the state and city
passes equal their restrictions to the resolvable ids — and a search
whose only criterion is one unresolvable state id returns the empty
list (HTTP 200 with body `[]`), not an error. -/
theorem unresolved_ids_skipped (st : Store) (sids cids : List String)
    (acc : List Place) (i : String) (h : getState st i = none) :
    statePassList st sids =
        statePassList st (sids.filter (fun j => (getState st j).isSome))
    ∧ cityPassList st cids acc =
        cityPassList st (cids.filter (fun j => (getCity st j).isSome)) acc
    ∧ searchPlaces st ⟨some [i], none, none⟩ = []
    ∧ placesSearchHTTP st
        (Body.valid (Json.obj [("states", Json.arr [Json.str i])])) =
        Response.ok [] := by
  refine ⟨statePassList_filter_resolved st sids,
    cityPassList_filter_resolved st cids acc, ?_, ?_⟩
  · simp [searchPlaces, truthyOpt, candidatesOf, statePassList,
      statePassStep, h]
  · simp [placesSearchHTTP, handleData, handleObjFields, jsonTruthy,
      optJTruthy, lookupKey, critElems, pyIter, statePassJ, statePassStepJ,
      getStateJ, cityPassJ, h]

/-- C4 witness: searching the concrete store for the nonexistent state
id "zzz" returns the empty list. -/
theorem unresolved_ids_skipped_witness :
    searchPlaces sampleStore ⟨some ["zzz"], none, none⟩ = [] :=
  (unresolved_ids_skipped sampleStore [] [] [] "zzz" (by decide)).2.2.1

/-- C5: for every search invocation in which both stateIds and cityIds
are absent or empty (falsy) but amenityIds is present and non-empty,
the candidate set submitted to the amenity narrowing is the full Place
collection rather than the empty set. -/
theorem amenities_only_full_candidates (st : Store) (d : SearchData)
    (hs : truthyOpt d.states = false) (hc : truthyOpt d.cities = false)
    (ha : truthyOpt d.amenities = true) :
    searchPlaces st d =
      (amenityNarrow st (d.amenities.getD []) st.places).map reprOf := by
  have hcand : candidatesOf st d = [] := by
    simp [candidatesOf, hs, hc]
  simp [searchPlaces, ha, hcand]

/-- C5 witness: present-but-empty states and cities lists (not merely
absent ones) with amenities = [A1], at the concrete store. -/
theorem amenities_only_full_candidates_witness :
    searchPlaces sampleStore ⟨some [], some [], some ["A1"]⟩ =
      (amenityNarrow sampleStore ["A1"] sampleStore.places).map reprOf :=
  amenities_only_full_candidates sampleStore ⟨some [], some [], some ["A1"]⟩
    rfl rfl rfl

/-- C6: for every search invocation with non-empty criteria, the
candidate set is built in insertion order — all state-derived places
first (enumerating the requested states, their cities and their places
in store order, per the flatMap characterization), then the
city-derived unique additions; when amenities are falsy the result is
exactly that list serialized in order, and when amenities are truthy
the result is an order-preserving subsequence of the serialized base
list (the narrowing is a filter) — no sorting is ever applied. -/
theorem search_insertion_order (st : Store) (d : SearchData)
    (hne : truthyOpt d.states = true ∨ truthyOpt d.cities = true ∨
      truthyOpt d.amenities = true) :
    candidatesOf st d =
        statePassList st (d.states.getD []) ++
          cityExtras st (d.cities.getD []) (statePassList st (d.states.getD []))
    ∧ (∀ q ∈ cityExtras st (d.cities.getD [])
          (statePassList st (d.states.getD [])),
        q ∉ statePassList st (d.states.getD []) ∧
          ∃ c ∈ (d.cities.getD []).filterMap (getCity st), q ∈ cityPlaces st c)
    ∧ statePassList st (d.states.getD []) =
        ((d.states.getD []).filterMap (getState st)).flatMap
          (fun s => (stateCities st s).flatMap (cityPlaces st))
    ∧ (truthyOpt d.amenities = false →
        searchPlaces st d = (candidatesOf st d).map reprOf)
    ∧ (truthyOpt d.amenities = true →
        List.Sublist (searchPlaces st d)
          ((if (candidatesOf st d).isEmpty then st.places
            else candidatesOf st d).map reprOf)) := by
  obtain ⟨t, ht, hq⟩ := cityPassList_extends st (d.cities.getD [])
    (statePassList st (d.states.getD []))
  have hext : cityExtras st (d.cities.getD [])
      (statePassList st (d.states.getD [])) = t := by
    unfold cityExtras
    rw [ht, List.drop_left]
  refine ⟨?_, ?_, statePassList_eq_flatMap st _, ?_, ?_⟩
  · rw [candidatesOf_eq_general st d, ht, hext]
  · rw [hext]
    intro q hqt
    exact hq q hqt
  · intro ha
    rcases hne with h | h | h
    · simp [searchPlaces, h, ha]
    · simp [searchPlaces, h, ha]
    · simp [h] at ha
  · intro ha
    have hres : searchPlaces st d =
        (amenityNarrow st (d.amenities.getD [])
          (if (candidatesOf st d).isEmpty then st.places
           else candidatesOf st d)).map reprOf := by
      simp [searchPlaces, ha]
    rw [hres]
    refine List.Sublist.map reprOf ?_
    unfold amenityNarrow
    exact List.filter_sublist _

/-- C6 witness: states = [S1], cities = [C1], no amenities: the result is
the candidate list — state pass first, city additions after — mapped in
order. -/
theorem search_insertion_order_witness :
    searchPlaces sampleStore ⟨some ["S1"], some ["C1"], none⟩ =
      (candidatesOf sampleStore ⟨some ["S1"], some ["C1"], none⟩).map reprOf :=
  (search_insertion_order sampleStore ⟨some ["S1"], some ["C1"], none⟩
    (Or.inl rfl)).2.2.2.1 rfl

/-- C9: when states and/or cities are supplied but the candidate set they
build is empty, a non-empty amenities list makes the search fall back
to the full Place collection — the result is the amenity narrowing of
every stored place, not the empty list. -/
theorem empty_candidates_amenity_fallback (st : Store) (d : SearchData)
    (hsc : truthyOpt d.states = true ∨ truthyOpt d.cities = true)
    (ha : truthyOpt d.amenities = true)
    (hempty : candidatesOf st d = []) :
    searchPlaces st d =
      (amenityNarrow st (d.amenities.getD []) st.places).map reprOf := by
  simp [searchPlaces, ha, hempty]

/-- C9 witness: states = ["zzz"] (resolving to nothing) with amenities =
[A1] returns the amenity narrowing of all places of the concrete store. -/
theorem empty_candidates_amenity_fallback_witness :
    searchPlaces sampleStore ⟨some ["zzz"], none, some ["A1"]⟩ =
      (amenityNarrow sampleStore ["A1"] sampleStore.places).map reprOf :=
  empty_candidates_amenity_fallback sampleStore ⟨some ["zzz"], none, some ["A1"]⟩
    (Or.inl rfl) rfl (by decide)

/-! ## The frame claim: `places_search` only reads the store -/

theorem foldl_keeps_snd {α β : Type} (f : β × Store → α → β × Store)
    (h : ∀ pr a, (f pr a).2 = pr.2) :
    ∀ (l : List α) (pr : β × Store), (l.foldl f pr).2 = pr.2 := by
  intro l
  induction l with
  | nil => intro pr; rfl
  | cons a tl ih => intro pr; rw [List.foldl_cons, ih, h]

theorem runStatePass_keeps_store (jids : List Json)
    (pr : List Place × Store) : (runStatePass jids pr).2 = pr.2 := by
  apply foldl_keeps_snd
  intro q j
  dsimp only [runGetStateJ, runStateCities, runCityPlaces]
  cases getStateJ q.2 j with
  | none => rfl
  | some s =>
      exact foldl_keeps_snd
        (fun (q : List Place × Store) c => (q.1 ++ cityPlaces q.2 c, q.2))
        (fun _ _ => rfl) (stateCities q.2 s) (q.1, q.2)

theorem runCityPass_keeps_store (jids : List Json)
    (pr : List Place × Store) : (runCityPass jids pr).2 = pr.2 := by
  apply foldl_keeps_snd
  intro q j
  dsimp only [runGetCityJ, runCityPlaces]
  cases getCityJ q.2 j with
  | none => rfl
  | some c => rfl

theorem runAmenityResolve_keeps_store (jids : List Json) :
    ∀ pr : List (Option Amenity) × Store,
      (jids.foldl
        (fun pr j =>
          let oa := runGetAmenityJ j pr.2
          (pr.1 ++ [oa.1], oa.2)) pr).2 = pr.2 := by
  induction jids with
  | nil => intro pr; rfl
  | cons j tl ih => intro pr; exact ih _

theorem runAmenityScan_keeps_store (aobjs : List (Option Amenity))
    (ps : List Place) :
    ∀ pr : List Place × Store,
      (ps.foldl
        (fun pr p =>
          let ams := runPlaceAmenities p pr.2
          (if aobjs.all (fun oa =>
              match oa with
              | none => false
              | some a => decide (a ∈ ams.1)) then pr.1 ++ [p] else pr.1,
           ams.2)) pr).2 = pr.2 := by
  induction ps with
  | nil => intro pr; rfl
  | cons p tl ih => intro pr; exact ih _

theorem runAmenityNarrow_keeps_store (jids : List Json) (ps : List Place)
    (st : Store) : (runAmenityNarrow jids ps st).2 = st := by
  unfold runAmenityNarrow
  dsimp only
  exact Eq.trans (runAmenityScan_keeps_store _ ps _)
    (runAmenityResolve_keeps_store jids ([], st))

theorem runHandleObjFields_keeps_store (f : List (String × Json))
    (st : Store) : (runHandleObjFields f st).2 = st := by
  unfold runHandleObjFields
  dsimp only
  split
  · rfl
  · split
    · rfl
    · split
      · rw [runStatePass_keeps_store]
      · split
        · rw [runCityPass_keeps_store, runStatePass_keeps_store]
        · split
          · split
            · rw [runAmenityNarrow_keeps_store, runAllPlaces,
                runCityPass_keeps_store, runStatePass_keeps_store]
            · rw [runAmenityNarrow_keeps_store,
                runCityPass_keeps_store, runStatePass_keeps_store]
          · rw [runCityPass_keeps_store, runStatePass_keeps_store]

/-- C7: `places_search` is purely a read — for every request body, the
store after the threaded run of the endpoint is exactly the store
before it; no entity of any type is created, updated, deleted or
saved. -/
theorem places_search_readonly (st : Store) (b : Body) :
    (runPlacesSearch b st).2 = st := by
  cases b with
  | invalid => rfl
  | valid j =>
      cases j with
      | null => rfl
      | obj f =>
          unfold runPlacesSearch
          dsimp only
          split
          · exact runHandleObjFields_keeps_store f st
          · rfl
      | bool v => unfold runPlacesSearch; dsimp only; split <;> rfl
      | num n => unfold runPlacesSearch; dsimp only; split <;> rfl
      | str s => unfold runPlacesSearch; dsimp only; split <;> rfl
      | arr l => unfold runPlacesSearch; dsimp only; split <;> rfl

/-! ## The HTTP error contract -/

theorem handleObjFields_ne_bad400 (st : Store) (f : List (String × Json)) :
    handleObjFields st f ≠ Response.bad400 := by
  unfold handleObjFields
  dsimp only
  split
  · simp
  · split
    · simp
    · split
      · simp
      · split
        · simp
        · simp

theorem handleData_ne_bad400 (st : Store) (j : Json) :
    handleData st j ≠ Response.bad400 := by
  cases j with
  | obj f =>
      unfold handleData
      dsimp only
      split
      · exact handleObjFields_ne_bad400 st f
      · simp
  | null => unfold handleData; dsimp only; split <;> simp
  | bool v => unfold handleData; dsimp only; split <;> simp
  | num n => unfold handleData; dsimp only; split <;> simp
  | str s => unfold handleData; dsimp only; split <;> simp
  | arr l => unfold handleData; dsimp only; split <;> simp

/-- C8 (amended): the endpoint answers with the 400 handler's
`{"error": "Bad Request"}` exactly when `request.get_json()` yields
nothing — the body is not valid JSON, or is the JSON literal `null`
(which parses to Python `None`); and every valid-JSON object body whose
criteria values the code can iterate (absent, falsy, or an
array/string/object) receives a 200 with a possibly empty list. -/
theorem http_bad_request_iff (st : Store) (b : Body) :
    (placesSearchHTTP st b = Response.bad400 ↔
      b = Body.invalid ∨ b = Body.valid Json.null)
    ∧ ∀ f : List (String × Json),
        (critElems (lookupKey f "states")).isSome = true →
        (critElems (lookupKey f "cities")).isSome = true →
        (critElems (lookupKey f "amenities")).isSome = true →
        ∃ l, placesSearchHTTP st (Body.valid (Json.obj f)) = Response.ok l := by
  constructor
  · cases b with
    | invalid => simp [placesSearchHTTP]
    | valid j =>
        cases j with
        | null => simp [placesSearchHTTP]
        | obj f => simpa [placesSearchHTTP] using handleData_ne_bad400 st (Json.obj f)
        | bool v => simpa [placesSearchHTTP] using handleData_ne_bad400 st (Json.bool v)
        | num n => simpa [placesSearchHTTP] using handleData_ne_bad400 st (Json.num n)
        | str s => simpa [placesSearchHTTP] using handleData_ne_bad400 st (Json.str s)
        | arr l => simpa [placesSearchHTTP] using handleData_ne_bad400 st (Json.arr l)
  · intro f h1 h2 h3
    rcases Option.isSome_iff_exists.mp h1 with ⟨sjs, hsv⟩
    rcases Option.isSome_iff_exists.mp h2 with ⟨cjs, hcv⟩
    rcases Option.isSome_iff_exists.mp h3 with ⟨ajs, hav⟩
    show ∃ l, handleData st (Json.obj f) = Response.ok l
    unfold handleData
    dsimp only
    split
    · unfold handleObjFields
      dsimp only
      split
      · exact ⟨_, rfl⟩
      · rw [hsv, hcv, hav]
        dsimp only
        split
        · exact ⟨_, rfl⟩
        · exact ⟨_, rfl⟩
    · exact ⟨_, rfl⟩

/-- C8 counterexample: the JSON literal `null` is a valid-JSON body, yet
the endpoint answers it with the 400 Bad Request response — so "error
if and only if the body is not valid JSON" fails. -/
theorem http_null_body_bad400 :
    placesSearchHTTP sampleStore (Body.valid Json.null) = Response.bad400
    ∧ Body.valid Json.null ≠ Body.invalid :=
  ⟨rfl, fun h => Body.noConfusion h⟩

/-- C8 witness: the 400 characterization applied at the invalid body,
and a concrete conforming object body receiving a 200. -/
theorem http_bad_request_iff_witness :
    placesSearchHTTP sampleStore Body.invalid = Response.bad400 ∧
    ∃ l, placesSearchHTTP sampleStore
        (Body.valid (Json.obj [("states", Json.arr [Json.str "S1"])])) =
      Response.ok l :=
  ⟨(http_bad_request_iff sampleStore Body.invalid).1.mpr (Or.inl rfl),
   (http_bad_request_iff sampleStore Body.invalid).2
     [("states", Json.arr [Json.str "S1"])] rfl rfl rfl⟩

/-! ## The ignore list of `update_place` -/

theorem attrLookup_cons (hd : String × Json) (tl : List (String × Json))
    (k : String) :
    attrLookup (hd :: tl) k =
      if hd.1 == k then some hd.2 else attrLookup tl k := by
  unfold attrLookup
  cases h : hd.1 == k with
  | true => simp [List.find?_cons, h]
  | false => simp [List.find?_cons, h]

theorem attrLookup_overwrite_ne (attrs : List (String × Json))
    (k k2 : String) (v : Json) (hne : (k2 == k) = false) :
    attrLookup (attrs.map (fun kv => if kv.1 == k2 then (k2, v) else kv)) k =
      attrLookup attrs k := by
  induction attrs with
  | nil => rfl
  | cons hd tl ih =>
      rw [List.map_cons, attrLookup_cons, attrLookup_cons]
      by_cases h2 : (hd.1 == k2) = true
      · have hdk : (hd.1 == k) = false := by
          rw [eq_of_beq h2]; exact hne
        rw [if_pos h2, if_neg (by simp [hne]), if_neg (by simp [hdk])]
        exact ih
      · rw [if_neg h2]
        by_cases hk : (hd.1 == k) = true
        · rw [if_pos hk, if_pos hk]
        · rw [if_neg hk, if_neg hk]
          exact ih

theorem attrLookup_append_ne (attrs : List (String × Json))
    (k k2 : String) (v : Json) (hne : (k2 == k) = false) :
    attrLookup (attrs ++ [(k2, v)]) k = attrLookup attrs k := by
  induction attrs with
  | nil => simp [attrLookup_cons, hne, attrLookup]
  | cons hd tl ih =>
      rw [List.cons_append, attrLookup_cons, attrLookup_cons, ih]

theorem attrLookup_setAttr_ne (attrs : List (String × Json))
    (k k2 : String) (v : Json) (hne : (k2 == k) = false) :
    attrLookup (setAttr attrs k2 v) k = attrLookup attrs k := by
  unfold setAttr
  split
  · exact attrLookup_overwrite_ne attrs k k2 v hne
  · exact attrLookup_append_ne attrs k k2 v hne

theorem applyUpdates_ignored (data : List (String × Json)) :
    ∀ (attrs : List (String × Json)) (k : String), k ∈ ignore_keys →
      attrLookup (applyUpdates attrs data) k = attrLookup attrs k := by
  induction data with
  | nil => intro attrs k _; rfl
  | cons kv tl ih =>
      intro attrs k hk
      by_cases hkv : kv.1 ∈ ignore_keys
      · have hstep : applyUpdates attrs (kv :: tl) = applyUpdates attrs tl := by
          unfold applyUpdates
          rw [List.foldl_cons]
          simp [hkv]
        rw [hstep]
        exact ih attrs k hk
      · have hne : (kv.1 == k) = false := by
          apply beq_eq_false_iff_ne.mpr
          intro he
          exact hkv (he ▸ hk)
        have hstep : applyUpdates attrs (kv :: tl) =
            applyUpdates (setAttr attrs kv.1 kv.2) tl := by
          unfold applyUpdates
          rw [List.foldl_cons]
          simp [hkv]
        rw [hstep, ih _ k hk, attrLookup_setAttr_ne _ _ _ _ hne]

/-- C10: applying a PUT body to a place assigns no value to the fields
id, user_id, city_id or created_at, whatever keys the JSON body holds,
and an attribute changed by the update is never one of the code's
ignore list. -/
theorem update_place_ignored_fields (attrs data : List (String × Json))
    (k : String) :
    (k ∈ ["id", "user_id", "city_id", "created_at"] →
      attrLookup (applyUpdates attrs data) k = attrLookup attrs k)
    ∧ (attrLookup (applyUpdates attrs data) k ≠ attrLookup attrs k →
        ¬ k ∈ ignore_keys) := by
  constructor
  · intro hk
    have hik : k ∈ ignore_keys := by
      simp only [List.mem_cons, List.not_mem_nil, or_false] at hk
      rcases hk with rfl | rfl | rfl | rfl
      · decide
      · decide
      · decide
      · decide
    exact applyUpdates_ignored data attrs k hik
  · intro hch hik
    exact hch (applyUpdates_ignored data attrs k hik)

end AirBnB
